import Mathlib

/-!
Verification development for the `react-klbfw-hooks` library.

This file gives a shallow embedding, in Lean 4, of the parts of the library
that the specification talks about:

* the shared variable store (`src/ssr.js`: `useVar`, `getVarSetter`, the
  per-name setter closure, `setPromise`),
* the REST request cache built on top of it (`rest.js`, provided as
  `src/unnamed/part_002`: `useRest`, `useRestRefresh`, the `refresh`
  closure, `useRestResetter`),
* the snapshot construction of the server renderer
  (`src/ssr.js`: `makeRenderer`).

JavaScript values are modelled by the inductive `JSVal`; the mutable
per-render context object is modelled by the structure `Ctx`, with the
variable entries and the `"@rest"` namespace as separate fields (in the
source both live as properties of one JS object; no variable of the
library is ever named `"@rest"`, so the separation is faithful).
Asynchronous transport calls are modelled by an explicit log of issued
GET requests (`fetchLog`) plus explicit resolution steps
(`resolveSuccess` / `resolveFailure`) that play the `then`/`catch`/
`finally` callbacks attached in `refresh`.  Subscriber notification is
modelled by a log of delivered callbacks (`notifyLog`).
-/

set_option autoImplicit false

namespace KlbfwHooks

/-- A JavaScript value, as far as the library manipulates them:
`undefined`, `null`, booleans, numbers (the library only ever compares
and subtracts integral timestamps, so `Int` suffices), strings, plain
objects (association lists of fields) and arrays. -/
inductive JSVal where
  | undefined
  | null
  | bool (b : Bool)
  | num (n : Int)
  | str (s : String)
  | obj (fields : List (String × JSVal))
  | arr (elems : List JSVal)
  deriving Repr

mutual

/-- A deterministic rendering of `JSON.stringify`, used by `useRest` to
canonicalize structured `params` into the cache-key string.  The claims
only depend on it being a fixed function; string escaping is elided. -/
def jsonStringify : JSVal → String
  | .undefined => "null"
  | .null => "null"
  | .bool true => "true"
  | .bool false => "false"
  | .num n => toString n
  | .str s => "\"" ++ s ++ "\""
  | .obj fs => "\x7b" ++ jsonStringifyFields fs ++ "\x7d"
  | .arr es => "[" ++ jsonStringifyElems es ++ "]"

/-- Serialize the fields of a JSON object, comma separated. -/
def jsonStringifyFields : List (String × JSVal) → String
  | [] => ""
  | [(k, v)] => "\"" ++ k ++ "\":" ++ jsonStringify v
  | (k, v) :: t => "\"" ++ k ++ "\":" ++ jsonStringify v ++ "," ++ jsonStringifyFields t

/-- Serialize the elements of a JSON array, comma separated. -/
def jsonStringifyElems : List JSVal → String
  | [] => ""
  | [e] => jsonStringify e
  | e :: t => jsonStringify e ++ "," ++ jsonStringifyElems t

end

/-- JavaScript truthiness of a value (`if (v)`), for the values of `JSVal`. -/
def truthy : JSVal → Bool
  | .undefined => false
  | .null => false
  | .bool b => b
  | .num n => n != 0
  | .str s => s != ""
  | .obj _ => true
  | .arr _ => true

/-- JavaScript loose equality with null (`v == null`), which holds exactly
for `null` and `undefined`. -/
def looseNull : JSVal → Bool
  | .null => true
  | .undefined => true
  | _ => false

/-- The JavaScript `typeof` operator on the values of `JSVal`
(`typeof null` is `"object"`). -/
def typeofJS : JSVal → String
  | .undefined => "undefined"
  | .null => "object"
  | .bool _ => "boolean"
  | .num _ => "number"
  | .str _ => "string"
  | .obj _ => "object"
  | .arr _ => "object"

/-- JavaScript strict equality against the literal `true`
(`value === true` / negated `value !== true`). -/
def strictTrue : JSVal → Bool
  | .bool true => true
  | _ => false

/-- Lookup in an association list keyed by strings; models reading a
property of a JS object (first binding wins, our writers never duplicate
keys). -/
def lookupA {α : Type} : List (String × α) → String → Option α
  | [], _ => none
  | (k', v) :: t, k => if k' = k then some v else lookupA t k

/-- Update the binding of a key if present (models assigning to an
existing property of a JS object). -/
def updateA {α : Type} : List (String × α) → String → (α → α) → List (String × α)
  | [], _, _ => []
  | (k', v) :: t, k, f => if k' = k then (k', f v) :: t else (k', v) :: updateA t k f

/-- Property read `v.name` for a non-null `v` (undefined when the field is
missing or the value is not an object, as in JS for primitives; the
library only reads fields after its `v == null` check). -/
def getField (v : JSVal) (name : String) : JSVal :=
  match v with
  | .obj fs => (lookupA fs name).getD .undefined
  | _ => .undefined

/-- One entry of the shared variable store: `ctx[varName]` in `src/ssr.js`
(`{value, subscribers, setter}`; the setter is the stable per-name closure,
modelled by `applySetVar` below, so it is not stored).  Subscriber
callbacks are identified by numeric ids; the list is kept duplicate-free
(`Set` semantics). -/
structure VarEntry where
  value : JSVal
  subscribers : List Nat
  deriving Repr

/-- One entry of the `ctx["@rest"]` cache namespace (`rest.js`,
`src/unnamed/part_002`): `{path, params, set, time, refresh}`.  `set` is
the shared setter of the variable named `varKey` (the entry is created
with `setV` for `path+"?"+params`); `refresh` is the closure modelled by
`applyRefresh`.  `time` is `undefined` (`none`) until the `finally`
callback of a fetch stamps it. -/
structure RestData where
  path : String
  params : String
  varKey : String
  time : Option Int
  deriving Repr

/-- The per-render context object.  In the source this is a single JS
object holding the variable entries under their names together with the
bookkeeping properties `"@rest"` (and, in older revisions, `"@promises"`);
here the pieces are separate fields.  `promisesSet` is the content of the
render pass's promise barrier (the `"@promises"` set of the spec);
`fetchLog` records every transport GET issued (path and params), so the
promise of the i-th GET is identified with the index i; `notifyLog`
records every subscriber callback invocation `(subscriber, key, newVal)`. -/
structure Ctx where
  vars : List (String × VarEntry)
  rest : Option (List (String × RestData))
  promisesSet : List Nat
  fetchLog : List (String × String)
  notifyLog : List (Nat × String × JSVal)
  deriving Repr

/-- The empty context a server render pass starts from
(`let varCtx = {}` in `makeRenderer`, `src/ssr.js`). -/
def freshCtx : Ctx :=
  { vars := [], rest := none, promisesSet := [], fetchLog := [], notifyLog := [] }

/-- Current value of a named variable, if the entry exists. -/
def varValue (ctx : Ctx) (key : String) : Option JSVal :=
  (lookupA ctx.vars key).map (fun e => e.value)

/-- Current subscriber set of a named variable (empty if no entry). -/
def varSubs (ctx : Ctx) (key : String) : List Nat :=
  match lookupA ctx.vars key with
  | some e => e.subscribers
  | none => []

/-- Entry creation on first access (`src/ssr.js` lines 43-52 and 77-86):
if the context has no property `varName`, create
`{value: defaultValue, subscribers: new Set(), setter: ...}`. -/
def ensureVar (ctx : Ctx) (varName : String) (defaultValue : JSVal) : Ctx :=
  match lookupA ctx.vars varName with
  | some _ => ctx
  | none => { ctx with vars := ctx.vars ++ [(varName, ⟨defaultValue, []⟩)] }

/-- Insertion into a subscriber `Set` (idempotent). -/
def insertSub (l : List Nat) (s : Nat) : List Nat :=
  if l.contains s then l else l ++ [s]

/-- `ctx[varName].subscribers.add(setV)` (`src/ssr.js` line 55). -/
def subscribeVar (ctx : Ctx) (varName : String) (sub : Nat) : Ctx :=
  { ctx with vars := updateA ctx.vars varName (fun e => { e with subscribers := insertSub e.subscribers sub }) }

/-- The stable per-name setter closure (`src/ssr.js` lines 47-50 and
81-84): `newVal => { ctx[varName].value = newVal;
ctx[varName].subscribers.forEach(cb => cb({key: varName, newVal})) }`.
The closure dereferences `ctx[varName]` at call time; entries are never
deleted in the library, so the `none` case is unreachable for setters the
library created and is modelled as a no-op. -/
def applySetVar (ctx : Ctx) (key : String) (newVal : JSVal) : Ctx :=
  match lookupA ctx.vars key with
  | none => ctx
  | some e =>
      { ctx with
        vars := updateA ctx.vars key (fun e' => { e' with value := newVal }),
        notifyLog := ctx.notifyLog ++ e.subscribers.map (fun s => (s, key, newVal)) }

/-- Subscription teardown on a key change (`src/ssr.js` lines 34-41):
`if (ctx.hasOwnProperty(v.key)) ctx[v.key].subscribers.delete(setV)`. -/
def unsubscribeVar (ctx : Ctx) (varName : String) (sub : Nat) : Ctx :=
  let unsub := fun (e : VarEntry) => { e with subscribers := e.subscribers.filter (fun s => s != sub) }
  match lookupA ctx.vars varName with
  | some _ => { ctx with vars := updateA ctx.vars varName unsub }
  | none => ctx

/-- `useVar(varName, defaultValue)` from `src/ssr.js` lines 28-66, for the
component whose `useState` cell currently holds `{key: prevKey}` and whose
React state setter is `sub`.  On a key change the subscription to the old
name is torn down first (lines 34-41); then the entry for `varName` is
created if needed and `sub` is subscribed.  Returns the updated context,
the new content of the state cell's `key`, and the value the hook returns
(`ctx[varName].value`). -/
def useVar (ctx : Ctx) (prevKey : String) (sub : Nat) (varName : String)
    (defaultValue : JSVal) : Ctx × String × JSVal :=
  let ctx := if prevKey ≠ varName then unsubscribeVar ctx prevKey sub else ctx
  let ctx := ensureVar ctx varName defaultValue
  let ctx := subscribeVar ctx varName sub
  (ctx, varName, (varValue ctx varName).getD defaultValue)

/-- `getVarSetter(ctx, varName, defaultValue)` from `src/ssr.js` lines
76-89: create the entry if needed and return `[value, setter]` without
subscribing anything. -/
def getVarSetter (ctx : Ctx) (varName : String) (defaultValue : JSVal) : Ctx × JSVal :=
  let ctx := ensureVar ctx varName defaultValue
  (ctx, (varValue ctx varName).getD defaultValue)

/-- `setPromise(ctx, prom)` from `src/ssr.js` lines 121-124: a no-op kept
for backward compatibility (promises are handled by the React Router data
APIs).  It does not touch the context, in particular not `promisesSet`. -/
def setPromise (ctx : Ctx) (_prom : Option Nat) : Ctx := ctx

/-- Property creation `ctx["@rest"] = {}` when absent (`rest.js` lines
20-22). -/
def ensureRest (ctx : Ctx) : Ctx :=
  match ctx.rest with
  | none => { ctx with rest := some [] }
  | some _ => ctx

/-- `ctxRest.hasOwnProperty(key)` / `ctxRest[key]` combined lookup. -/
def restLookup (ctx : Ctx) (key : String) : Option RestData :=
  lookupA (ctx.rest.getD []) key

/-- `ctxRest[key] = restData` for a fresh key (`rest.js` line 34). -/
def restInsert (ctx : Ctx) (key : String) (rd : RestData) : Ctx :=
  { ctx with rest := some ((ctx.rest.getD []) ++ [(key, rd)]) }

/-- Assignment to `restData.time`; the object is shared through
`ctx["@rest"]`, so the mutation is modelled on the map entry. -/
def setTime (ctx : Ctx) (key : String) (t : Option Int) : Ctx :=
  { ctx with rest := ctx.rest.map (fun m => updateA m key (fun rd => { rd with time := t })) }

/-- The `refresh` closure of a cache entry (`rest.js` lines 36-53).
With an argument of JS type `"object"` it force-sets the entry to
`{value: value}` and returns `undefined` (no promise, no network call).
Otherwise it issues the transport GET `rest(path, "GET", params)` —
recorded in `fetchLog`, the new promise being identified by its index —
and, unless the argument is the literal `true`, resets the displayed value
to `null`; the `then`/`catch`/`finally` callbacks attached to the promise
are played later by `resolveSuccess`/`resolveFailure`.  Returns the
updated context and the promise (if any). -/
def applyRefresh (ctx : Ctx) (rd : RestData) (value : JSVal) : Ctx × Option Nat :=
  if typeofJS value = "object" then
    (applySetVar ctx rd.varKey (.obj [("value", value)]), none)
  else
    let promId := ctx.fetchLog.length
    let ctx := { ctx with fetchLog := ctx.fetchLog ++ [(rd.path, rd.params)] }
    let ctx := if strictTrue value then ctx else applySetVar ctx rd.varKey .null
    (ctx, some promId)

/-- Resolution of a pending fetch with a successful response: the `then`
callback `res => restData.set({value: res})` followed by the `finally`
callback `() => restData.time = new Date().getTime()` (`rest.js` lines
44-47), at wall-clock time `now`. -/
def resolveSuccess (ctx : Ctx) (key : String) (res : JSVal) (now : Int) : Ctx :=
  match restLookup ctx key with
  | none => ctx
  | some rd => setTime (applySetVar ctx rd.varKey (.obj [("value", res)])) key (some now)

/-- Resolution of a pending fetch with a rejection: the `catch` callback
`e => restData.set({error: e})` followed by the `finally` timestamp
(`rest.js` lines 44-47). -/
def resolveFailure (ctx : Ctx) (key : String) (e : JSVal) (now : Int) : Ctx :=
  match restLookup ctx key with
  | none => ctx
  | some rd => setTime (applySetVar ctx rd.varKey (.obj [("error", e)])) key (some now)

/-- The staleness test
`cacheLifeTime && restData.time && (new Date().getTime() - restData.time) > cacheLifeTime`
(`rest.js` lines 56 and 63), as the truthiness of the resulting JS value:
false whenever `cacheLifeTime` is absent or `0`, or `time` is `undefined`
or the (unreachable in practice) timestamp `0`. -/
def cacheReached (cacheLifeTime : Option Int) (time : Option Int) (now : Int) : Bool :=
  match cacheLifeTime, time with
  | some l, some t => l != 0 && (t != 0 && decide (now - t > l))
  | _, _ => false

/-- Normalization of the `params` argument (`rest.js` lines 7-15): a
string is kept, `undefined` becomes `""`, anything else is
`JSON.stringify`ed. -/
def normalizeParams : JSVal → String
  | .str s => s
  | .undefined => ""
  | p => jsonStringify p

/-- What a `useRest` call gives back to the component: either a normal
return — `first` being the first element of the returned pair, the second
element always being the entry's stable `refresh` closure — or a thrown
error. -/
inductive Outcome where
  | ret (first : JSVal)
  | thrown (e : JSVal)
  deriving Repr

/-- The consumer-facing projection of the entry value `v` read by
`useVar`, from `rest.js` lines 71-83: `[null, refresh]` when `v == null`;
if `v.error` is truthy, `[false, refresh]` when `noThrow === true` and
`throw v.error` otherwise; else `[v.value, refresh]`. -/
def project (v : JSVal) (noThrow : JSVal) : Outcome :=
  if looseNull v then .ret .null
  else if truthy (getField v "error") then
    if strictTrue noThrow then .ret (.bool false)
    else .thrown (getField v "error")
  else .ret (getField v "value")

/-- `useRest(path, params, noThrow, cacheLifeTime)` from `rest.js` lines
5-84, executed against `ctx` by a component whose subscriber id is `sub`
(its `useVar` state cell already holds the current key, i.e. this is a
first render or a render without a key change), at wall-clock time `now`.
The cache key is `path+"?"+params` after normalization; a fresh entry, or
a stale one (`v == null`, or TTL expired), clears `time` and triggers
`refresh()` whose promise is handed to `setPromise`. -/
def useRest (ctx : Ctx) (path : String) (params : JSVal) (noThrow : JSVal)
    (cacheLifeTime : Option Int) (sub : Nat) (now : Int) : Ctx × Outcome :=
  let ps := normalizeParams params
  let key := path ++ "?" ++ ps
  let r := useVar ctx key sub key .null
  let ctx := r.1
  let v := r.2.2
  let ctx := ensureRest ctx
  match restLookup ctx key with
  | none =>
      let rd : RestData := { path := path, params := ps, varKey := key, time := none }
      let ctx := restInsert ctx key rd
      if looseNull v || cacheReached cacheLifeTime rd.time now then
        let ctx := setTime ctx key none
        let pr := applyRefresh ctx rd .undefined
        let ctx := setPromise pr.1 pr.2
        (ctx, project v noThrow)
      else
        (ctx, project v noThrow)
  | some rd =>
      if cacheReached cacheLifeTime rd.time now then
        let ctx := setTime ctx key none
        let pr := applyRefresh ctx rd .undefined
        let ctx := setPromise pr.1 pr.2
        (ctx, project v noThrow)
      else
        (ctx, project v noThrow)

/-- `useRestRefresh(path, params, cacheLifeTime)` from `rest.js` lines
87-152: identical cache handling but reading the variable through
`getVarSetter` (no subscription) and returning only the `refresh`
closure (elided: it is determined by the entry). -/
def useRestRefresh (ctx : Ctx) (path : String) (params : JSVal)
    (cacheLifeTime : Option Int) (now : Int) : Ctx :=
  let ps := normalizeParams params
  let key := path ++ "?" ++ ps
  let r := getVarSetter ctx key .null
  let ctx := r.1
  let v := r.2
  let ctx := ensureRest ctx
  match restLookup ctx key with
  | none =>
      let rd : RestData := { path := path, params := ps, varKey := key, time := none }
      let ctx := restInsert ctx key rd
      if looseNull v || cacheReached cacheLifeTime rd.time now then
        let ctx := setTime ctx key none
        let pr := applyRefresh ctx rd .undefined
        setPromise pr.1 pr.2
      else
        ctx
  | some rd =>
      if cacheReached cacheLifeTime rd.time now then
        let ctx := setTime ctx key none
        let pr := applyRefresh ctx rd .undefined
        setPromise pr.1 pr.2
      else
        ctx

/-- The loop `for(let k in oldRest) oldRest[k].set(null)` of the reset
closure (`rest.js` lines 165-167): call the stored setter of each old
entry with `null`, left to right. -/
def resetFold (c : Ctx) : List (String × RestData) → Ctx
  | [] => c
  | kv :: t => resetFold (applySetVar c kv.2.varKey .null) t

/-- The cache-clearing closure returned by `useRestResetter()`
(`rest.js` lines 155-169): if the context has no `"@rest"` namespace,
do nothing; otherwise replace it with an empty one and call
`oldRest[k].set(null)` for every previously tracked entry. -/
def useRestResetter (ctx : Ctx) : Ctx :=
  match ctx.rest with
  | none => ctx
  | some oldRest => resetFold { ctx with rest := some [] } oldRest

/-- One hook invocation in a render pass, for sequencing scenarios:
either `useRest(path, params, noThrow, cacheLifeTime)` by the component
with subscriber id `sub`, or `useRestRefresh(path, params,
cacheLifeTime)`, each at wall-clock time `now`. -/
inductive CallSpec where
  | restCall (path : String) (params : JSVal) (noThrow : JSVal)
      (cacheLifeTime : Option Int) (sub : Nat) (now : Int)
  | refreshHook (path : String) (params : JSVal) (cacheLifeTime : Option Int) (now : Int)

/-- The path argument of a call. -/
def CallSpec.path : CallSpec → String
  | .restCall p _ _ _ _ _ => p
  | .refreshHook p _ _ _ => p

/-- The params argument of a call. -/
def CallSpec.params : CallSpec → JSVal
  | .restCall _ q _ _ _ _ => q
  | .refreshHook _ q _ _ => q

/-- Execute one call against the context (a thrown projection does not
undo the context mutations that already happened). -/
def applyCall (ctx : Ctx) : CallSpec → Ctx
  | .restCall p q nt ttl sub now => (useRest ctx p q nt ttl sub now).1
  | .refreshHook p q ttl now => useRestRefresh ctx p q ttl now

/-- Execute a sequence of calls left to right. -/
def runCalls (ctx : Ctx) : List CallSpec → Ctx
  | [] => ctx
  | c :: t => runCalls (applyCall ctx c) t

/-- First character of a JS string as `"s".charAt(0)` reads it
(`none` models the empty string `charAt` returns out of range). -/
def jsCharAtZero (s : String) : Option Char :=
  s.data.head?

/-- The serialized snapshot a server render pass produces
(`result` in `makeRenderer`, `src/ssr.js`): `initial` is
`initialVariables`, `redirect`/`statusCode` the redirect outcome, `app`
the markup (absent when rendering was skipped).  Helmet metadata is
orthogonal to every claim and elided. -/
structure RenderResult where
  uuid : String
  initial : List (String × JSVal)
  redirect : Option String
  statusCode : Option Nat
  app : Option String
  deriving Repr

/-- Outcome of `query(fetchRequest)` in `makeRenderer` (`src/ssr.js`
line 187): either a `Response` (carrying a status and an optional
`Location` header) or a data context for the static router. -/
inductive QueryResult where
  | response (status : Nat) (location : Option String)
  | dataContext

/-- The status codes `makeRenderer` short-circuits on
(`[301, 302, 303, 307, 308].includes(context.status)`,
`src/ssr.js` line 192). -/
def redirectStatuses : List Nat := [301, 302, 303, 307, 308]

/-- Building `result.initial` from the variable context (`src/ssr.js`
lines 241-245): every entry except those whose name's `charAt(0)` is
`"@"`, carrying the entry's current value. -/
def buildInitial (varCtx : List (String × VarEntry)) : List (String × JSVal) :=
  (varCtx.filter (fun p => jsCharAtZero p.1 != some '@')).map (fun p => (p.1, p.2.value))

/-- The rendering stage of `makeRenderer` (`src/ssr.js` lines 201-258)
once no redirect was detected: render the app against a fresh variable
context (`render` abstracts `ReactDOMServer.renderToString` of the
routed tree, returning the markup and the variable context as the
render left it), then serialize the non-private variables. -/
def runRenderStage (render : List (String × VarEntry) → String × List (String × VarEntry))
    (uuid : String) : RenderResult :=
  let r := render []
  { uuid := uuid, initial := buildInitial r.2, redirect := none, statusCode := none,
    app := some r.1 }

/-- The renderer returned by `makeRenderer(routes)` (`src/ssr.js` lines
163-269) applied to one request, with the routing query's outcome and the
rendering of the routed tree abstracted as inputs: if the query produced a
`Response` whose status is one of the five redirect codes, terminate at
once with `{redirect, statusCode}` and never render (lines 190-199);
otherwise run the render stage. -/
def makeRenderer (queryResult : QueryResult)
    (render : List (String × VarEntry) → String × List (String × VarEntry))
    (uuid : String) : RenderResult :=
  match queryResult with
  | .response st loc =>
      if redirectStatuses.contains st then
        { uuid := uuid, initial := [], redirect := loc, statusCode := some st, app := none }
      else
        runRenderStage render uuid
  | .dataContext => runRenderStage render uuid

/-! Concrete contexts used by witnesses and counterexamples: a first
`useRest("/a")` call on a fresh server context, and its resolutions. -/

/-- The context after a first `useRest("/a")` read on a fresh render
context: the entry is created and the fetch for `"/a?"` is in flight. -/
def ctxAfterFirst : Ctx :=
  (useRest freshCtx "/a" .undefined .undefined none 5 1).1

/-- `ctxAfterFirst` once the fetch resolved successfully with `"d"` at
time 100. -/
def ctxWithValue : Ctx :=
  resolveSuccess ctxAfterFirst "/a?" (.str "d") 100

/-- `ctxAfterFirst` once the fetch rejected with the (truthy) error
string `"boom"` at time 100. -/
def ctxWithError : Ctx :=
  resolveFailure ctxAfterFirst "/a?" (.str "boom") 100

/-- `ctxAfterFirst` once the fetch rejected with the falsy error value
`false` at time 100. -/
def ctxWithFalsyError : Ctx :=
  resolveFailure ctxAfterFirst "/a?" (.bool false) 100

/-- The cache entry `ctxAfterFirst` tracks for `"/a?"`. -/
def rdA : RestData :=
  { path := "/a", params := "", varKey := "/a?", time := none }

/-- The cache entry `ctxWithValue` tracks for `"/a?"`: fetch completed
successfully at time 100. -/
def rdW : RestData :=
  { path := "/a", params := "", varKey := "/a?", time := some 100 }

/-- A context in which subscriber 5 is subscribed to variable `"a"`,
about to remap its `useVar` to `"b"`. -/
def ctxC9 : Ctx :=
  { vars := [("a", ⟨.num 1, [5]⟩)], rest := none, promisesSet := [], fetchLog := [],
    notifyLog := [] }

/-- Three overlapping reads of `"/a"` with the same normalized params
(`undefined` and `""` both normalize to `""`), mixing `useRest` and
`useRestRefresh`, different consumers, noThrow and TTL arguments. -/
def callsW : List CallSpec :=
  [.restCall "/a" .undefined .undefined none 1 1,
   .restCall "/a" (.str "") (.bool true) (some 60) 2 2,
   .refreshHook "/a" .undefined (some 60) 3]

/-!  ## Lemmas

General lemmas about the association-list primitives and about which
parts of the context each operation touches.  -/

@[simp] theorem lookupA_nil {α : Type} (k : String) : lookupA ([] : List (String × α)) k = none := rfl

@[simp] theorem lookupA_cons {α : Type} (k' k : String) (v : α) (t : List (String × α)) :
    lookupA ((k', v) :: t) k = if k' = k then some v else lookupA t k := rfl

theorem lookupA_append {α : Type} (l₁ l₂ : List (String × α)) (k : String) :
    lookupA (l₁ ++ l₂) k = match lookupA l₁ k with
      | some v => some v
      | none => lookupA l₂ k := by
  induction l₁ with
  | nil => simp
  | cons hd t ih =>
      obtain ⟨k', v⟩ := hd
      by_cases h : k' = k <;> simp [h, ih]

theorem lookupA_updateA_self {α : Type} (l : List (String × α)) (k : String) (f : α → α) :
    lookupA (updateA l k f) k = (lookupA l k).map f := by
  induction l with
  | nil => simp [updateA]
  | cons hd t ih =>
      obtain ⟨k', v⟩ := hd
      by_cases h : k' = k <;> simp [updateA, h, ih]

theorem lookupA_updateA_ne {α : Type} (l : List (String × α)) (k k' : String) (f : α → α)
    (h : k ≠ k') : lookupA (updateA l k f) k' = lookupA l k' := by
  induction l with
  | nil => simp [updateA]
  | cons hd t ih =>
      obtain ⟨k₀, v⟩ := hd
      by_cases h₀ : k₀ = k
      · subst h₀; simp [updateA, h]
      · simp [updateA, h₀, ih]

theorem lookupA_updateA {α : Type} (l : List (String × α)) (k k' : String) (f : α → α) :
    lookupA (updateA l k f) k' =
      if k = k' then (lookupA l k').map f else lookupA l k' := by
  by_cases h : k = k'
  · subst h; simp [lookupA_updateA_self]
  · simp [h, lookupA_updateA_ne l k k' f h]

@[simp] theorem rest_ensureVar (c : Ctx) (k : String) (dv : JSVal) :
    (ensureVar c k dv).rest = c.rest := by
  unfold ensureVar; cases lookupA c.vars k <;> rfl

@[simp] theorem fetchLog_ensureVar (c : Ctx) (k : String) (dv : JSVal) :
    (ensureVar c k dv).fetchLog = c.fetchLog := by
  unfold ensureVar; cases lookupA c.vars k <;> rfl

@[simp] theorem promisesSet_ensureVar (c : Ctx) (k : String) (dv : JSVal) :
    (ensureVar c k dv).promisesSet = c.promisesSet := by
  unfold ensureVar; cases lookupA c.vars k <;> rfl

@[simp] theorem notifyLog_ensureVar (c : Ctx) (k : String) (dv : JSVal) :
    (ensureVar c k dv).notifyLog = c.notifyLog := by
  unfold ensureVar; cases lookupA c.vars k <;> rfl

theorem varValue_ensureVar_self (c : Ctx) (k : String) (dv : JSVal) :
    varValue (ensureVar c k dv) k = some ((varValue c k).getD dv) := by
  unfold ensureVar varValue
  cases h : lookupA c.vars k with
  | some e => simp [h]
  | none => simp [h, lookupA_append]

theorem varValue_ensureVar_ne (c : Ctx) (k k' : String) (dv : JSVal) (h : k ≠ k') :
    varValue (ensureVar c k dv) k' = varValue c k' := by
  unfold ensureVar varValue
  cases hk : lookupA c.vars k with
  | some e => rfl
  | none => cases hk' : lookupA c.vars k' <;> simp [lookupA_append, h, hk']

theorem varSubs_ensureVar (c : Ctx) (k k' : String) (dv : JSVal) :
    varSubs (ensureVar c k dv) k' = varSubs c k' := by
  unfold ensureVar varSubs
  cases hk : lookupA c.vars k with
  | some e => rfl
  | none =>
      by_cases h : k = k'
      · subst h; simp [lookupA_append, hk]
      · cases hk' : lookupA c.vars k' <;> simp [lookupA_append, h, hk']

@[simp] theorem rest_subscribeVar (c : Ctx) (k : String) (s : Nat) :
    (subscribeVar c k s).rest = c.rest := rfl

@[simp] theorem fetchLog_subscribeVar (c : Ctx) (k : String) (s : Nat) :
    (subscribeVar c k s).fetchLog = c.fetchLog := rfl

@[simp] theorem promisesSet_subscribeVar (c : Ctx) (k : String) (s : Nat) :
    (subscribeVar c k s).promisesSet = c.promisesSet := rfl

@[simp] theorem notifyLog_subscribeVar (c : Ctx) (k : String) (s : Nat) :
    (subscribeVar c k s).notifyLog = c.notifyLog := rfl

theorem varValue_subscribeVar (c : Ctx) (k k' : String) (s : Nat) :
    varValue (subscribeVar c k s) k' = varValue c k' := by
  unfold subscribeVar varValue
  simp only [lookupA_updateA]
  by_cases h : k = k' <;> cases hk : lookupA c.vars k' <;> simp [h, hk]

@[simp] theorem rest_applySetVar (c : Ctx) (k : String) (v : JSVal) :
    (applySetVar c k v).rest = c.rest := by
  unfold applySetVar; cases lookupA c.vars k <;> rfl

@[simp] theorem fetchLog_applySetVar (c : Ctx) (k : String) (v : JSVal) :
    (applySetVar c k v).fetchLog = c.fetchLog := by
  unfold applySetVar; cases lookupA c.vars k <;> rfl

@[simp] theorem promisesSet_applySetVar (c : Ctx) (k : String) (v : JSVal) :
    (applySetVar c k v).promisesSet = c.promisesSet := by
  unfold applySetVar; cases lookupA c.vars k <;> rfl

theorem varSubs_applySetVar (c : Ctx) (k k' : String) (v : JSVal) :
    varSubs (applySetVar c k v) k' = varSubs c k' := by
  unfold applySetVar varSubs
  cases hk : lookupA c.vars k with
  | none => rfl
  | some e =>
      simp only [lookupA_updateA]
      by_cases h : k = k' <;> cases hk' : lookupA c.vars k' <;> simp [h, hk']

theorem varValue_applySetVar_present (c : Ctx) (k : String) (v : JSVal) (e : VarEntry)
    (h : lookupA c.vars k = some e) :
    varValue (applySetVar c k v) k = some v := by
  unfold applySetVar varValue
  simp [h, lookupA_updateA_self]

theorem varValue_applySetVar_ne (c : Ctx) (k k' : String) (v : JSVal) (h : k ≠ k') :
    varValue (applySetVar c k v) k' = varValue c k' := by
  unfold applySetVar varValue
  cases hk : lookupA c.vars k with
  | none => rfl
  | some e => simp [lookupA_updateA_ne _ _ _ _ h]

theorem notifyLog_applySetVar_mem (c : Ctx) (k : String) (v : JSVal)
    (x : Nat × String × JSVal) (h : x ∈ c.notifyLog) :
    x ∈ (applySetVar c k v).notifyLog := by
  unfold applySetVar
  cases lookupA c.vars k with
  | none => exact h
  | some e => simp [h]

theorem notifyLog_applySetVar_subscriber (c : Ctx) (k : String) (v : JSVal) (s : Nat)
    (h : s ∈ varSubs c k) : (s, k, v) ∈ (applySetVar c k v).notifyLog := by
  unfold applySetVar
  unfold varSubs at h
  cases hk : lookupA c.vars k with
  | none => simp [hk] at h
  | some e =>
      rw [hk] at h
      exact List.mem_append_right _ (List.mem_map_of_mem _ h)

theorem useVar_self (c : Ctx) (k : String) (sub : Nat) (dv : JSVal) :
    useVar c k sub k dv =
      (subscribeVar (ensureVar c k dv) k sub, k, (varValue c k).getD dv) := by
  unfold useVar
  simp only [ne_eq, not_true_eq_false, if_false, ite_false]
  rw [varValue_subscribeVar, varValue_ensureVar_self]
  rfl

theorem getVarSetter_eq (c : Ctx) (k : String) (dv : JSVal) :
    getVarSetter c k dv = (ensureVar c k dv, (varValue c k).getD dv) := by
  simp only [getVarSetter]
  rw [varValue_ensureVar_self]
  rfl

@[simp] theorem vars_ensureRest (c : Ctx) : (ensureRest c).vars = c.vars := by
  unfold ensureRest; cases c.rest <;> rfl

@[simp] theorem fetchLog_ensureRest (c : Ctx) : (ensureRest c).fetchLog = c.fetchLog := by
  unfold ensureRest; cases c.rest <;> rfl

@[simp] theorem promisesSet_ensureRest (c : Ctx) : (ensureRest c).promisesSet = c.promisesSet := by
  unfold ensureRest; cases c.rest <;> rfl

@[simp] theorem notifyLog_ensureRest (c : Ctx) : (ensureRest c).notifyLog = c.notifyLog := by
  unfold ensureRest; cases c.rest <;> rfl

@[simp] theorem restLookup_ensureRest (c : Ctx) (k : String) :
    restLookup (ensureRest c) k = restLookup c k := by
  unfold ensureRest restLookup
  cases h : c.rest <;> simp [h]

theorem restLookup_eq_of_rest_eq {c₁ c₂ : Ctx} (h : c₁.rest = c₂.rest) (k : String) :
    restLookup c₁ k = restLookup c₂ k := by
  unfold restLookup; rw [h]

theorem varValue_eq_of_vars_eq {c₁ c₂ : Ctx} (h : c₁.vars = c₂.vars) (k : String) :
    varValue c₁ k = varValue c₂ k := by
  unfold varValue; rw [h]

@[simp] theorem vars_restInsert (c : Ctx) (k : String) (rd : RestData) :
    (restInsert c k rd).vars = c.vars := rfl

@[simp] theorem fetchLog_restInsert (c : Ctx) (k : String) (rd : RestData) :
    (restInsert c k rd).fetchLog = c.fetchLog := rfl

@[simp] theorem promisesSet_restInsert (c : Ctx) (k : String) (rd : RestData) :
    (restInsert c k rd).promisesSet = c.promisesSet := rfl

theorem restLookup_restInsert_fresh (c : Ctx) (k : String) (rd : RestData)
    (h : restLookup c k = none) : restLookup (restInsert c k rd) k = some rd := by
  unfold restLookup restInsert at *
  simp [lookupA_append, h]

@[simp] theorem vars_setTime (c : Ctx) (k : String) (t : Option Int) :
    (setTime c k t).vars = c.vars := rfl

@[simp] theorem fetchLog_setTime (c : Ctx) (k : String) (t : Option Int) :
    (setTime c k t).fetchLog = c.fetchLog := rfl

@[simp] theorem promisesSet_setTime (c : Ctx) (k : String) (t : Option Int) :
    (setTime c k t).promisesSet = c.promisesSet := rfl

theorem restLookup_setTime_self (c : Ctx) (k : String) (t : Option Int) :
    restLookup (setTime c k t) k = (restLookup c k).map (fun rd => { rd with time := t }) := by
  unfold restLookup setTime
  cases c.rest with
  | none => rfl
  | some m => simp [lookupA_updateA_self]

@[simp] theorem rest_applyRefresh (c : Ctx) (rd : RestData) (v : JSVal) :
    (applyRefresh c rd v).1.rest = c.rest := by
  simp only [applyRefresh]
  by_cases h : typeofJS v = "object"
  · simp [h]
  · by_cases h' : strictTrue v = true <;> simp [h, h', rest_applySetVar]

@[simp] theorem promisesSet_applyRefresh (c : Ctx) (rd : RestData) (v : JSVal) :
    (applyRefresh c rd v).1.promisesSet = c.promisesSet := by
  simp only [applyRefresh]
  by_cases h : typeofJS v = "object"
  · simp [h]
  · by_cases h' : strictTrue v = true <;> simp [h, h', promisesSet_applySetVar]

theorem fetchLog_applyRefresh_noArg (c : Ctx) (rd : RestData) :
    (applyRefresh c rd .undefined).1.fetchLog = c.fetchLog ++ [(rd.path, rd.params)] := by
  simp only [applyRefresh]
  simp [typeofJS, strictTrue, fetchLog_applySetVar]

theorem cacheReached_time_none (l : Option Int) (now : Int) :
    cacheReached l none now = false := by
  cases l <;> rfl

theorem strictTrue_eq_false_of_ne (v : JSVal) (h : v ≠ .bool true) :
    strictTrue v = false := by
  cases v with
  | bool b => cases b with
    | false => rfl
    | true => exact absurd rfl h
  | _ => rfl

/-- A `useRest` call always hands back the projection of the variable
value it read at the top, whatever the cache branch did afterwards. -/
theorem useRest_outcome (c : Ctx) (p : String) (q nt : JSVal) (ttl : Option Int)
    (sub : Nat) (now : Int) :
    (useRest c p q nt ttl sub now).2 =
      project ((varValue c (p ++ "?" ++ normalizeParams q)).getD .null) nt := by
  simp only [useRest, useVar_self]
  cases h : restLookup (ensureRest (subscribeVar (ensureVar c (p ++ "?" ++ normalizeParams q) .null) (p ++ "?" ++ normalizeParams q) sub)) (p ++ "?" ++ normalizeParams q) <;>
    simp only [h] <;> split <;> rfl

/-- A `useRest` call on a key the cache does not track yet, whose backing
variable reads as `null`, creates the entry (with `time` undefined) and
issues exactly one GET. -/
theorem useRest_fresh (c : Ctx) (p key : String) (q nt : JSVal) (ttl : Option Int)
    (sub : Nat) (now : Int)
    (hkey : key = p ++ "?" ++ normalizeParams q)
    (hfresh : restLookup c key = none)
    (hnull : looseNull ((varValue c key).getD .null) = true) :
    (useRest c p q nt ttl sub now).1.fetchLog = c.fetchLog ++ [(p, normalizeParams q)] ∧
    restLookup (useRest c p q nt ttl sub now).1 key =
      some { path := p, params := normalizeParams q, varKey := key, time := none } := by
  subst hkey
  have hA : (subscribeVar (ensureVar c (p ++ "?" ++ normalizeParams q) .null)
      (p ++ "?" ++ normalizeParams q) sub).rest = c.rest := by simp
  have hB : restLookup (ensureRest (subscribeVar (ensureVar c (p ++ "?" ++ normalizeParams q) .null)
      (p ++ "?" ++ normalizeParams q) sub)) (p ++ "?" ++ normalizeParams q) = none := by
    rw [restLookup_ensureRest, restLookup_eq_of_rest_eq hA, hfresh]
  simp only [useRest, useVar_self, hB, hnull, Bool.true_or, if_true, setPromise]
  constructor
  · rw [fetchLog_applyRefresh_noArg]
    simp
  · have h₁ : restLookup (restInsert (ensureRest (subscribeVar
        (ensureVar c (p ++ "?" ++ normalizeParams q) .null) (p ++ "?" ++ normalizeParams q) sub))
        (p ++ "?" ++ normalizeParams q)
        { path := p, params := normalizeParams q, varKey := p ++ "?" ++ normalizeParams q, time := none })
        (p ++ "?" ++ normalizeParams q) =
        some { path := p, params := normalizeParams q, varKey := p ++ "?" ++ normalizeParams q, time := none } :=
      restLookup_restInsert_fresh _ _ _ hB
    rw [restLookup_eq_of_rest_eq (rest_applyRefresh _ _ _), restLookup_setTime_self, h₁]
    rfl

/-- A `useRest` call on a key the cache already tracks, when the TTL test
is not satisfied, issues no GET and leaves the entry untouched; the
backing variable keeps its value (the entry's variable is created with
default `null` if it did not exist). -/
theorem useRest_hit_quiet (c : Ctx) (p key : String) (q nt : JSVal) (ttl : Option Int)
    (sub : Nat) (now : Int) (rd : RestData)
    (hkey : key = p ++ "?" ++ normalizeParams q)
    (hrd : restLookup c key = some rd)
    (hreached : cacheReached ttl rd.time now = false) :
    (useRest c p q nt ttl sub now).1.fetchLog = c.fetchLog ∧
    restLookup (useRest c p q nt ttl sub now).1 key = some rd ∧
    varValue (useRest c p q nt ttl sub now).1 key = some ((varValue c key).getD .null) := by
  subst hkey
  have hA : (subscribeVar (ensureVar c (p ++ "?" ++ normalizeParams q) .null)
      (p ++ "?" ++ normalizeParams q) sub).rest = c.rest := by simp
  have hB : restLookup (ensureRest (subscribeVar (ensureVar c (p ++ "?" ++ normalizeParams q) .null)
      (p ++ "?" ++ normalizeParams q) sub)) (p ++ "?" ++ normalizeParams q) = some rd := by
    rw [restLookup_ensureRest, restLookup_eq_of_rest_eq hA, hrd]
  simp only [useRest, useVar_self, hB, hreached, if_false, Bool.false_eq_true]
  refine ⟨by simp, trivial, ?_⟩
  rw [varValue_eq_of_vars_eq (vars_ensureRest _), varValue_subscribeVar,
    varValue_ensureVar_self]

/-- A `useRest` call on a tracked key whose TTL test fires clears the
timestamp and issues exactly one GET for the entry's path and params. -/
theorem useRest_hit_stale (c : Ctx) (p key : String) (q nt : JSVal) (ttl : Option Int)
    (sub : Nat) (now : Int) (rd : RestData)
    (hkey : key = p ++ "?" ++ normalizeParams q)
    (hrd : restLookup c key = some rd)
    (hreached : cacheReached ttl rd.time now = true) :
    (useRest c p q nt ttl sub now).1.fetchLog = c.fetchLog ++ [(rd.path, rd.params)] := by
  subst hkey
  have hA : (subscribeVar (ensureVar c (p ++ "?" ++ normalizeParams q) .null)
      (p ++ "?" ++ normalizeParams q) sub).rest = c.rest := by simp
  have hB : restLookup (ensureRest (subscribeVar (ensureVar c (p ++ "?" ++ normalizeParams q) .null)
      (p ++ "?" ++ normalizeParams q) sub)) (p ++ "?" ++ normalizeParams q) = some rd := by
    rw [restLookup_ensureRest, restLookup_eq_of_rest_eq hA, hrd]
  simp only [useRest, useVar_self, hB, hreached, if_true, setPromise]
  rw [fetchLog_applyRefresh_noArg]
  simp

/-- `useRestRefresh` on an untracked key whose backing variable reads as
`null`: same entry creation and single GET as `useRest`. -/
theorem useRestRefresh_fresh (c : Ctx) (p key : String) (q : JSVal) (ttl : Option Int)
    (now : Int)
    (hkey : key = p ++ "?" ++ normalizeParams q)
    (hfresh : restLookup c key = none)
    (hnull : looseNull ((varValue c key).getD .null) = true) :
    (useRestRefresh c p q ttl now).fetchLog = c.fetchLog ++ [(p, normalizeParams q)] ∧
    restLookup (useRestRefresh c p q ttl now) key =
      some { path := p, params := normalizeParams q, varKey := key, time := none } := by
  subst hkey
  have hB : restLookup (ensureRest (ensureVar c (p ++ "?" ++ normalizeParams q) .null))
      (p ++ "?" ++ normalizeParams q) = none := by
    rw [restLookup_ensureRest, restLookup_eq_of_rest_eq (rest_ensureVar _ _ _), hfresh]
  simp only [useRestRefresh, getVarSetter_eq, hB, hnull, Bool.true_or, if_true, setPromise]
  constructor
  · rw [fetchLog_applyRefresh_noArg]
    simp
  · have h₁ : restLookup (restInsert (ensureRest (ensureVar c (p ++ "?" ++ normalizeParams q) .null))
        (p ++ "?" ++ normalizeParams q)
        { path := p, params := normalizeParams q, varKey := p ++ "?" ++ normalizeParams q, time := none })
        (p ++ "?" ++ normalizeParams q) =
        some { path := p, params := normalizeParams q, varKey := p ++ "?" ++ normalizeParams q, time := none } :=
      restLookup_restInsert_fresh _ _ _ hB
    rw [restLookup_eq_of_rest_eq (rest_applyRefresh _ _ _), restLookup_setTime_self, h₁]
    rfl

/-- `useRestRefresh` on a tracked key whose TTL test is not satisfied
issues no GET and leaves the entry untouched. -/
theorem useRestRefresh_hit_quiet (c : Ctx) (p key : String) (q : JSVal) (ttl : Option Int)
    (now : Int) (rd : RestData)
    (hkey : key = p ++ "?" ++ normalizeParams q)
    (hrd : restLookup c key = some rd)
    (hreached : cacheReached ttl rd.time now = false) :
    (useRestRefresh c p q ttl now).fetchLog = c.fetchLog ∧
    restLookup (useRestRefresh c p q ttl now) key = some rd := by
  subst hkey
  have hB : restLookup (ensureRest (ensureVar c (p ++ "?" ++ normalizeParams q) .null))
      (p ++ "?" ++ normalizeParams q) = some rd := by
    rw [restLookup_ensureRest, restLookup_eq_of_rest_eq (rest_ensureVar _ _ _), hrd]
  simp only [useRestRefresh, getVarSetter_eq, hB, hreached, if_false, Bool.false_eq_true]
  exact ⟨by simp, trivial⟩

/-- While a tracked entry still has `time = undefined` (its first fetch
has not resolved), any further sequence of reads of the same key — by
either hook, with any `noThrow`/TTL arguments — issues no GET and leaves
the entry in place. -/
theorem runCalls_quiet (p s : String) (rd : RestData) (calls : List CallSpec)
    (c : Ctx)
    (hsame : ∀ cs ∈ calls, cs.path = p ∧ normalizeParams cs.params = s)
    (htime : rd.time = none)
    (hinv : restLookup c (p ++ "?" ++ s) = some rd) :
    (runCalls c calls).fetchLog = c.fetchLog ∧
    restLookup (runCalls c calls) (p ++ "?" ++ s) = some rd := by
  induction calls generalizing c with
  | nil => exact ⟨rfl, hinv⟩
  | cons hd t ih =>
      obtain ⟨hp, hs⟩ := hsame hd (List.mem_cons_self _ _)
      have hstep : (applyCall c hd).fetchLog = c.fetchLog ∧
          restLookup (applyCall c hd) (p ++ "?" ++ s) = some rd := by
        cases hd with
        | restCall p' q' nt' ttl' sub' now' =>
            simp only [CallSpec.path] at hp
            simp only [CallSpec.params] at hs
            subst hp
            subst hs
            obtain ⟨h₁, h₂, _⟩ := useRest_hit_quiet c p' _ q' nt' ttl' sub' now' rd rfl hinv
              (by rw [htime]; exact cacheReached_time_none _ _)
            exact ⟨h₁, h₂⟩
        | refreshHook p' q' ttl' now' =>
            simp only [CallSpec.path] at hp
            simp only [CallSpec.params] at hs
            subst hp
            subst hs
            exact useRestRefresh_hit_quiet c p' _ q' ttl' now' rd rfl hinv
              (by rw [htime]; exact cacheReached_time_none _ _)
      have htail := ih (applyCall c hd)
        (fun cs hcs => hsame cs (List.mem_cons_of_mem _ hcs)) hstep.2
      exact ⟨by rw [runCalls, htail.1, hstep.1], by rw [runCalls, htail.2]⟩

/-- C2: for every sequence of two or more calls to `useRest` (or
`useRestRefresh`) with the same path and the same normalized params
against one variable context, starting with the key untracked and its
variable unset, and with the first fetch still unresolved throughout,
exactly one transport GET is issued: every call after the first reuses
the tracked cache entry instead of starting a duplicate request. -/
theorem c2_dedup_single_fetch (p s : String) (ctx : Ctx) (calls : List CallSpec)
    (hlen : 2 ≤ calls.length)
    (hsame : ∀ cs ∈ calls, cs.path = p ∧ normalizeParams cs.params = s)
    (hfresh : restLookup ctx (p ++ "?" ++ s) = none)
    (hnull : looseNull ((varValue ctx (p ++ "?" ++ s)).getD .null) = true) :
    (runCalls ctx calls).fetchLog = ctx.fetchLog ++ [(p, s)] := by
  cases calls with
  | nil => simp at hlen
  | cons hd t =>
      obtain ⟨hp, hs⟩ := hsame hd (List.mem_cons_self _ _)
      have hstep : (applyCall ctx hd).fetchLog = ctx.fetchLog ++ [(p, s)] ∧
          restLookup (applyCall ctx hd) (p ++ "?" ++ s) =
            some { path := p, params := s, varKey := p ++ "?" ++ s, time := none } := by
        cases hd with
        | restCall p' q' nt' ttl' sub' now' =>
            simp only [CallSpec.path] at hp
            simp only [CallSpec.params] at hs
            subst hp
            subst hs
            exact useRest_fresh ctx p' _ q' nt' ttl' sub' now' rfl hfresh hnull
        | refreshHook p' q' ttl' now' =>
            simp only [CallSpec.path] at hp
            simp only [CallSpec.params] at hs
            subst hp
            subst hs
            exact useRestRefresh_fresh ctx p' _ q' ttl' now' rfl hfresh hnull
      have htail := runCalls_quiet p s _ t (applyCall ctx hd)
        (fun cs hcs => hsame cs (List.mem_cons_of_mem _ hcs)) rfl hstep.2
      rw [runCalls, htail.1, hstep.1]

theorem project_null (nt : JSVal) : project .null nt = .ret .null := rfl

theorem project_value (x nt : JSVal) : project (.obj [("value", x)]) nt = .ret x := by
  unfold project getField
  simp [looseNull, lookupA, truthy]

theorem project_error_truthy (e nt : JSVal) (h : truthy e = true) :
    project (.obj [("error", e)]) nt =
      if strictTrue nt then .ret (.bool false) else .thrown e := by
  unfold project getField
  simp [looseNull, lookupA, h]

theorem promisesSet_useRest (c : Ctx) (p : String) (q nt : JSVal) (ttl : Option Int)
    (sub : Nat) (now : Int) :
    (useRest c p q nt ttl sub now).1.promisesSet = c.promisesSet := by
  simp only [useRest, useVar_self, setPromise]
  cases h : restLookup (ensureRest (subscribeVar (ensureVar c (p ++ "?" ++ normalizeParams q) .null) (p ++ "?" ++ normalizeParams q) sub)) (p ++ "?" ++ normalizeParams q) <;>
    simp only [h] <;> split <;> simp

theorem promisesSet_useRestRefresh (c : Ctx) (p : String) (q : JSVal) (ttl : Option Int)
    (now : Int) :
    (useRestRefresh c p q ttl now).promisesSet = c.promisesSet := by
  simp only [useRestRefresh, getVarSetter_eq, setPromise]
  cases h : restLookup (ensureRest (ensureVar c (p ++ "?" ++ normalizeParams q) .null)) (p ++ "?" ++ normalizeParams q) <;>
    simp only [h] <;> split <;> simp

/-- Witness for C2: three overlapping reads of `"/a"` on a fresh server
context issue exactly one GET. -/
theorem c2_dedup_single_fetch_witness :
    2 ≤ callsW.length ∧
    restLookup freshCtx ("/a" ++ "?" ++ "") = none ∧
    looseNull ((varValue freshCtx ("/a" ++ "?" ++ "")).getD .null) = true ∧
    (runCalls freshCtx callsW).fetchLog = freshCtx.fetchLog ++ [("/a", "")] :=
  ⟨by decide, rfl, rfl,
    c2_dedup_single_fetch "/a" "" freshCtx callsW (by decide)
      (by intro cs hcs
          simp only [callsW, List.mem_cons, List.not_mem_nil, or_false] at hcs
          rcases hcs with rfl | rfl | rfl <;> exact ⟨rfl, rfl⟩)
      rfl rfl⟩

/-- C1 is false on the code: on a fresh server render context, a stale
`useRest` read automatically triggers a refresh (the GET for `"/a"` is
issued) yet the promise returned by that refresh — promise id 0, the
index of the new fetch — is not registered anywhere: the render pass's
promise set stays empty, because `setPromise` (`src/ssr.js` lines
121-124) is a no-op. -/
theorem c1_counterexample :
    (useRest freshCtx "/a" .undefined .undefined none 5 1).1.fetchLog = [("/a", "")] ∧
    (useRest freshCtx "/a" .undefined .undefined none 5 1).1.promisesSet = [] ∧
    0 ∉ (useRest freshCtx "/a" .undefined .undefined none 5 1).1.promisesSet :=
  ⟨rfl, rfl, by decide⟩

/-- C1 (amended): the promise returned by `refresh` is passed to
`setPromise`, which in the current code is a deprecated no-op, so nothing
is ever registered with a promise barrier — neither by the automatic
refresh on a stale read (`useRest`/`useRestRefresh`) nor by a manual
`refresh` call: the barrier content of the context is always left
unchanged. -/
theorem c1_no_promise_registration (ctx : Ctx) (p : String) (q nt v : JSVal)
    (ttl : Option Int) (sub : Nat) (now : Int) (rd : RestData) :
    (useRest ctx p q nt ttl sub now).1.promisesSet = ctx.promisesSet ∧
    (useRestRefresh ctx p q ttl now).promisesSet = ctx.promisesSet ∧
    (applyRefresh ctx rd v).1.promisesSet = ctx.promisesSet :=
  ⟨promisesSet_useRest ctx p q nt ttl sub now,
   promisesSet_useRestRefresh ctx p q ttl now,
   promisesSet_applyRefresh ctx rd v⟩

/-- C3 is false on the code: invoking a cache entry's `refresh` with the
plain (non-boolean) number 5 does not force-set the entry — because
`typeof 5` is `"number"`, not `"object"` — but instead issues a transport
GET and resets the entry to `null`. -/
theorem c3_counterexample :
    (applyRefresh ctxWithValue rdA (.num 5)).1.fetchLog =
      ctxWithValue.fetchLog ++ [("/a", "")] ∧
    (applyRefresh ctxWithValue rdA (.num 5)).1.fetchLog ≠ ctxWithValue.fetchLog ∧
    varValue (applyRefresh ctxWithValue rdA (.num 5)).1 "/a?" = some .null :=
  ⟨rfl, by decide, rfl⟩

/-- C3 (amended): for every invocation of a cache entry's `refresh`
function with a value of JS type `"object"` (a plain object, an array, or
`null`), the entry is set directly to that value (wrapped as
`{value: ...}`) and no transport GET occurs, no promise being returned;
non-boolean primitive values (numbers, strings) do not take this path. -/
theorem c3_refresh_object_injection (ctx : Ctx) (rd : RestData) (v : JSVal) (e : VarEntry)
    (hobj : typeofJS v = "object")
    (hvar : lookupA ctx.vars rd.varKey = some e) :
    (applyRefresh ctx rd v).1.fetchLog = ctx.fetchLog ∧
    varValue (applyRefresh ctx rd v).1 rd.varKey = some (.obj [("value", v)]) ∧
    (applyRefresh ctx rd v).2 = none := by
  unfold applyRefresh
  rw [if_pos hobj]
  exact ⟨fetchLog_applySetVar _ _ _, varValue_applySetVar_present _ _ _ _ hvar, rfl⟩

/-- Witness for C3 (amended): injecting the object `{a: 1}` into the
tracked `"/a"` entry sets it directly, with no GET. -/
theorem c3_refresh_object_injection_witness :
    typeofJS (.obj [("a", .num 1)]) = "object" ∧
    (applyRefresh ctxWithValue rdA (.obj [("a", .num 1)])).1.fetchLog = ctxWithValue.fetchLog ∧
    varValue (applyRefresh ctxWithValue rdA (.obj [("a", .num 1)])).1 rdA.varKey =
      some (.obj [("value", .obj [("a", .num 1)])]) ∧
    (applyRefresh ctxWithValue rdA (.obj [("a", .num 1)])).2 = none := by
  have h := c3_refresh_object_injection ctxWithValue rdA (.obj [("a", .num 1)])
    ⟨.obj [("value", .str "d")], [5]⟩ rfl rfl
  exact ⟨rfl, h.1, h.2.1, h.2.2⟩

/-- C4: with `cacheLifeTime = T > 0` and an entry whose fetch completed
successfully at time `t0 > 0`, a read at `t0 + T - 1` returns the cached
value and issues no fetch, and a read at `t0 + T + 1` issues exactly one
new fetch. -/
theorem c4_ttl_boundary (ctx : Ctx) (p s key : String) (rd : RestData) (res nt nt' : JSVal)
    (T t0 : Int) (sub sub' : Nat)
    (hkey : key = p ++ "?" ++ s)
    (hrd : restLookup ctx key = some rd)
    (hpath : rd.path = p) (hparams : rd.params = s)
    (htime : rd.time = some t0)
    (hval : varValue ctx key = some (.obj [("value", res)]))
    (ht0 : 0 < t0) (hT : 0 < T) :
    (useRest ctx p (.str s) nt (some T) sub (t0 + T - 1)).2 = .ret res ∧
    (useRest ctx p (.str s) nt (some T) sub (t0 + T - 1)).1.fetchLog = ctx.fetchLog ∧
    (useRest (useRest ctx p (.str s) nt (some T) sub (t0 + T - 1)).1
        p (.str s) nt' (some T) sub' (t0 + T + 1)).1.fetchLog =
      ctx.fetchLog ++ [(p, s)] := by
  have hkey' : key = p ++ "?" ++ normalizeParams (.str s) := hkey
  have hreached1 : cacheReached (some T) rd.time (t0 + T - 1) = false := by
    rw [htime]
    have hlt : ¬ (t0 + T - 1 - t0 > T) := by omega
    simp [cacheReached, hlt]
  have hread1 := useRest_hit_quiet ctx p key (.str s) nt (some T) sub (t0 + T - 1) rd
    hkey' hrd hreached1
  have hout1 : (useRest ctx p (.str s) nt (some T) sub (t0 + T - 1)).2 = .ret res := by
    rw [useRest_outcome, ← hkey', hval]
    exact project_value res nt
  have hreached2 : cacheReached (some T) rd.time (t0 + T + 1) = true := by
    rw [htime]
    simp [cacheReached]
    omega
  have hread2 := useRest_hit_stale (useRest ctx p (.str s) nt (some T) sub (t0 + T - 1)).1
    p key (.str s) nt' (some T) sub' (t0 + T + 1) rd hkey' hread1.2.1 hreached2
  refine ⟨hout1, hread1.1, ?_⟩
  rw [hread2, hread1.1, hpath, hparams]

/-- Witness for C4: on the context holding `"/a"` fetched at 100 with
TTL 10, the read at 109 returns `"d"` with no fetch and the read at 111
fetches once. -/
theorem c4_ttl_boundary_witness :
    0 < (100 : Int) ∧ 0 < (10 : Int) ∧
    (useRest ctxWithValue "/a" (.str "") .undefined (some 10) 7 109).2 = .ret (.str "d") ∧
    (useRest ctxWithValue "/a" (.str "") .undefined (some 10) 7 109).1.fetchLog =
      ctxWithValue.fetchLog ∧
    (useRest (useRest ctxWithValue "/a" (.str "") .undefined (some 10) 7 109).1
        "/a" (.str "") .undefined (some 10) 8 111).1.fetchLog =
      ctxWithValue.fetchLog ++ [("/a", "")] := by
  have h := c4_ttl_boundary ctxWithValue "/a" "" "/a?" rdW (.str "d") .undefined .undefined
    10 100 7 8 (by decide) rfl rfl rfl rfl rfl (by decide) (by decide)
  refine ⟨by decide, by decide, ?_, ?_, ?_⟩
  · simpa using h.1
  · simpa using h.2.1
  · simpa using h.2.2

/-- C5 is false on the code as universally stated: an entry can hold a
falsy error (here the fetch rejected with `false`), and then the read
does not throw — `if (v.error)` fails — but falls through to the success
projection and returns `[undefined, refresh]`. -/
theorem c5_counterexample :
    varValue ctxWithFalsyError "/a?" = some (.obj [("error", .bool false)]) ∧
    (useRest ctxWithFalsyError "/a" .undefined .undefined none 6 200).2 = .ret .undefined ∧
    (useRest ctxWithFalsyError "/a" .undefined .undefined none 6 200).2 ≠ .thrown (.bool false) := by
  refine ⟨rfl, rfl, ?_⟩
  intro h
  rw [show (useRest ctxWithFalsyError "/a" .undefined .undefined none 6 200).2 = .ret .undefined
    from rfl] at h
  exact Outcome.noConfusion h

/-- C5 (amended): for every `useRest` call — while the entry is
unresolved (`null`) it returns `[null, refresh]`; once the entry holds a
value it returns `[value, refresh]`; once the entry holds a truthy error
it throws that error, unless `noThrow === true`, in which case it returns
`[false, refresh]` (an entry holding a falsy error is read through the
success projection instead). -/
theorem c5_read_projection (ctx : Ctx) (p : String) (q nt : JSVal) (ttl : Option Int)
    (sub : Nat) (now : Int) :
    ((varValue ctx (p ++ "?" ++ normalizeParams q)).getD .null = .null →
      (useRest ctx p q nt ttl sub now).2 = .ret .null) ∧
    (∀ x, varValue ctx (p ++ "?" ++ normalizeParams q) = some (.obj [("value", x)]) →
      (useRest ctx p q nt ttl sub now).2 = .ret x) ∧
    (∀ e, varValue ctx (p ++ "?" ++ normalizeParams q) = some (.obj [("error", e)]) →
      truthy e = true →
      (nt = .bool true → (useRest ctx p q nt ttl sub now).2 = .ret (.bool false)) ∧
      (nt ≠ .bool true → (useRest ctx p q nt ttl sub now).2 = .thrown e)) := by
  refine ⟨?_, ?_, ?_⟩
  · intro h
    rw [useRest_outcome, h]
    rfl
  · intro x h
    rw [useRest_outcome, h]
    exact project_value x nt
  · intro e h ht
    constructor
    · intro hnt
      subst hnt
      rw [useRest_outcome, h]
      have := project_error_truthy e (JSVal.bool true) ht
      simpa [strictTrue] using this
    · intro hnt
      rw [useRest_outcome, h]
      have := project_error_truthy e nt ht
      simpa [strictTrue_eq_false_of_ne nt hnt] using this

/-- Witness for C5 (amended): the three projections on concrete
contexts — pending, value `"d"`, truthy error `"boom"` with and without
`noThrow === true`. -/
theorem c5_read_projection_witness :
    (useRest ctxAfterFirst "/a" .undefined .undefined none 6 2).2 = .ret .null ∧
    (useRest ctxWithValue "/a" .undefined .undefined none 6 200).2 = .ret (.str "d") ∧
    (useRest ctxWithError "/a" .undefined (.bool true) none 6 200).2 = .ret (.bool false) ∧
    (useRest ctxWithError "/a" .undefined .undefined none 6 200).2 = .thrown (.str "boom") := by
  refine ⟨?_, ?_, ?_, ?_⟩
  · exact (c5_read_projection ctxAfterFirst "/a" .undefined .undefined none 6 2).1 rfl
  · exact (c5_read_projection ctxWithValue "/a" .undefined .undefined none 6 200).2.1 (.str "d") rfl
  · exact ((c5_read_projection ctxWithError "/a" .undefined (.bool true) none 6 200).2.2
      (.str "boom") rfl rfl).1 rfl
  · exact ((c5_read_projection ctxWithError "/a" .undefined .undefined none 6 200).2.2
      (.str "boom") rfl rfl).2 (by simp)

/-- C10: when `useRest` reads an entry in (truthy) error state, the error
is thrown for every `noThrow` argument that is not the boolean literal
`true` — including truthy non-boolean values such as `1` or a non-empty
string; only `noThrow === true` yields the `[false, refresh]` result. -/
theorem c10_noThrow_strict (ctx : Ctx) (p : String) (q nt e : JSVal) (ttl : Option Int)
    (sub : Nat) (now : Int)
    (hval : varValue ctx (p ++ "?" ++ normalizeParams q) = some (.obj [("error", e)]))
    (htruthy : truthy e = true) :
    (nt ≠ .bool true → (useRest ctx p q nt ttl sub now).2 = .thrown e) ∧
    (nt = .bool true → (useRest ctx p q nt ttl sub now).2 = .ret (.bool false)) := by
  constructor
  · intro hnt
    rw [useRest_outcome, hval]
    have := project_error_truthy e nt htruthy
    simpa [strictTrue_eq_false_of_ne nt hnt] using this
  · intro hnt
    subst hnt
    rw [useRest_outcome, hval]
    have := project_error_truthy e (JSVal.bool true) htruthy
    simpa [strictTrue] using this

/-- Witness for C10: on the entry holding error `"boom"`, `noThrow = 1`
and `noThrow = "x"` still throw; `noThrow = true` returns `false`. -/
theorem c10_noThrow_strict_witness :
    truthy (.str "boom") = true ∧
    (useRest ctxWithError "/a" .undefined (.num 1) none 6 200).2 = .thrown (.str "boom") ∧
    (useRest ctxWithError "/a" .undefined (.str "x") none 6 200).2 = .thrown (.str "boom") ∧
    (useRest ctxWithError "/a" .undefined (.bool true) none 6 200).2 = .ret (.bool false) := by
  refine ⟨rfl, ?_, ?_, ?_⟩
  · exact (c10_noThrow_strict ctxWithError "/a" .undefined (.num 1) (.str "boom") none 6 200
      rfl rfl).1 (by simp)
  · exact (c10_noThrow_strict ctxWithError "/a" .undefined (.str "x") (.str "boom") none 6 200
      rfl rfl).1 (by simp)
  · exact (c10_noThrow_strict ctxWithError "/a" .undefined (.bool true) (.str "boom") none 6 200
      rfl rfl).2 rfl

/-- C6 is false on the code for the full 3xx class: a routing `Response`
with the 3xx status 300 and target location `"/about"` does not
short-circuit — the check is membership in `[301, 302, 303, 307, 308]` —
so the renderer proceeds to render: no redirect target or status is set
and markup is produced. -/
theorem c6_counterexample :
    (makeRenderer (.response 300 (some "/about")) (fun c => ("<markup/>", c)) "u").redirect
      = none ∧
    (makeRenderer (.response 300 (some "/about")) (fun c => ("<markup/>", c)) "u").app
      = some "<markup/>" ∧
    ¬ ((makeRenderer (.response 300 (some "/about")) (fun c => ("<markup/>", c)) "u").redirect
        = some "/about" ∧
      (makeRenderer (.response 300 (some "/about")) (fun c => ("<markup/>", c)) "u").statusCode
        = some 300 ∧
      (makeRenderer (.response 300 (some "/about")) (fun c => ("<markup/>", c)) "u").app
        = none) := by
  refine ⟨rfl, rfl, ?_⟩
  rintro ⟨h1, -, -⟩
  rw [show (makeRenderer (.response 300 (some "/about")) (fun c => ("<markup/>", c)) "u").redirect
    = none from rfl] at h1
  exact Option.noConfusion h1

/-- C6 (amended): for every SSR request whose routing match yields a
`Response` carrying one of the redirect statuses 301, 302, 303, 307, 308
and a target location, the renderer terminates immediately with the
redirect target and status code set in the result, skips rendering
entirely (the result does not depend on the renderer) and produces no
markup and no initial variables. -/
theorem c6_redirect_shortcircuit (st : Nat) (loc : String)
    (render : List (String × VarEntry) → String × List (String × VarEntry)) (uuid : String)
    (h : st ∈ redirectStatuses) :
    makeRenderer (.response st (some loc)) render uuid =
      { uuid := uuid, initial := [], redirect := some loc, statusCode := some st,
        app := none } := by
  simp [makeRenderer, h]

/-- Witness for C6 (amended): a 301 to `"/about"` short-circuits with no
markup. -/
theorem c6_redirect_shortcircuit_witness :
    301 ∈ redirectStatuses ∧
    makeRenderer (.response 301 (some "/about")) (fun c => ("<markup/>", c)) "u" =
      { uuid := "u", initial := [], redirect := some "/about", statusCode := some 301,
        app := none } :=
  ⟨by decide, c6_redirect_shortcircuit 301 "/about" (fun c => ("<markup/>", c)) "u" (by decide)⟩

/-- No entry of `buildInitial` has `"@"` as its first character. -/
theorem buildInitial_no_private (l : List (String × VarEntry)) (name : String) (val : JSVal)
    (h : (name, val) ∈ buildInitial l) : jsCharAtZero name ≠ some '@' := by
  unfold buildInitial at h
  rcases List.mem_map.mp h with ⟨pair, hpair, heq⟩
  have hname : pair.1 = name := congrArg Prod.fst heq
  have hf := (List.mem_filter.mp hpair).2
  rw [hname] at hf
  exact bne_iff_ne.mp hf

/-- The first character of `"@" ++ r` is `'@'`. -/
theorem jsCharAtZero_at_append (r : String) : jsCharAtZero ("@" ++ r) = some '@' := by
  unfold jsCharAtZero
  rw [String.data_append]
  rfl

/-- C7: for every snapshot produced by a server render pass, no variable
whose name starts with the private sentinel character `"@"` appears in
the snapshot's initial variables, whatever the render stored in the
variable context. -/
theorem c7_private_never_leaks (q : QueryResult)
    (render : List (String × VarEntry) → String × List (String × VarEntry))
    (uuid name : String) (val : JSVal)
    (h : (name, val) ∈ (makeRenderer q render uuid).initial) :
    ¬ ∃ r, name = "@" ++ r := by
  rintro ⟨r, rfl⟩
  have hpriv : jsCharAtZero ("@" ++ r) = some '@' := jsCharAtZero_at_append r
  cases q with
  | response st loc =>
      by_cases hst : st ∈ redirectStatuses
      · simp [makeRenderer, hst] at h
      · have hc : redirectStatuses.contains st = false := by simpa using hst
        simp only [makeRenderer, runRenderStage, hc, Bool.false_eq_true, if_false] at h
        exact buildInitial_no_private _ _ _ h hpriv
  | dataContext =>
      simp only [makeRenderer, runRenderStage] at h
      exact buildInitial_no_private _ _ _ h hpriv

/-- Witness for C7: a render pass that stores both `"x"` and the private
`"@secret"` exports `"x"`, and the theorem applies to it; `"@secret"`
itself is indeed absent from the snapshot. -/
theorem c7_private_never_leaks_witness :
    ("x", JSVal.num 1) ∈ (makeRenderer .dataContext
      (fun _ => ("m", [("x", ⟨.num 1, []⟩), ("@secret", ⟨.num 2, []⟩)])) "u").initial ∧
    (¬ ∃ r, "x" = "@" ++ r) ∧
    (makeRenderer .dataContext
      (fun _ => ("m", [("x", ⟨.num 1, []⟩), ("@secret", ⟨.num 2, []⟩)])) "u").initial =
      [("x", JSVal.num 1)] := by
  refine ⟨?_, ?_, rfl⟩
  · show ("x", JSVal.num 1) ∈ [("x", JSVal.num 1)]
    exact List.mem_singleton.mpr rfl
  · exact c7_private_never_leaks .dataContext
      (fun _ => ("m", [("x", ⟨.num 1, []⟩), ("@secret", ⟨.num 2, []⟩)])) "u" "x" (.num 1)
      (by show ("x", JSVal.num 1) ∈ [("x", JSVal.num 1)]
          exact List.mem_singleton.mpr rfl)

theorem varSubs_subscribeVar_ne (c : Ctx) (k k' : String) (s : Nat) (h : k ≠ k') :
    varSubs (subscribeVar c k s) k' = varSubs c k' := by
  unfold subscribeVar varSubs
  simp [lookupA_updateA_ne _ _ _ _ h]

theorem mem_insertSub (l : List Nat) (s : Nat) : s ∈ insertSub l s := by
  unfold insertSub
  by_cases h : l.contains s = true
  · rw [if_pos h]
    exact List.mem_of_elem_eq_true h
  · rw [if_neg h]
    exact List.mem_append_right _ (List.mem_singleton.mpr rfl)

theorem varSubs_subscribeVar_self (c : Ctx) (k : String) (s : Nat) (e : VarEntry)
    (h : lookupA c.vars k = some e) :
    varSubs (subscribeVar c k s) k = insertSub e.subscribers s := by
  unfold subscribeVar varSubs
  simp [lookupA_updateA_self, h]

theorem lookupA_ensureVar_self (c : Ctx) (k : String) (dv : JSVal) :
    lookupA (ensureVar c k dv).vars k =
      some ⟨(varValue c k).getD dv, varSubs c k⟩ := by
  unfold ensureVar varValue varSubs
  cases h : lookupA c.vars k with
  | some e => simp [h]
  | none => simp [h, lookupA_append]

theorem varSubs_unsubscribeVar_self (c : Ctx) (k : String) (sub : Nat) :
    sub ∉ varSubs (unsubscribeVar c k sub) k := by
  unfold unsubscribeVar varSubs
  cases hk : lookupA c.vars k with
  | none => simp [hk]
  | some e =>
      simp only [hk, lookupA_updateA_self, Option.map_some]
      intro hmem
      have := (List.mem_filter.mp hmem).2
      simp at this

theorem notifyLog_unsubscribeVar (c : Ctx) (k : String) (sub : Nat) :
    (unsubscribeVar c k sub).notifyLog = c.notifyLog := by
  unfold unsubscribeVar
  cases lookupA c.vars k <;> rfl

theorem notifyLog_applySetVar_cases (c : Ctx) (k : String) (w : JSVal)
    (x : Nat × String × JSVal) (h : x ∈ (applySetVar c k w).notifyLog) :
    x ∈ c.notifyLog ∨ x.1 ∈ varSubs c k := by
  unfold applySetVar at h
  cases hk : lookupA c.vars k with
  | none =>
      rw [hk] at h
      exact Or.inl h
  | some e =>
      simp only [hk] at h
      rcases List.mem_append.mp h with h | h
      · exact Or.inl h
      · rcases List.mem_map.mp h with ⟨s', hs', rfl⟩
        right
        unfold varSubs
        rw [hk]
        exact hs'

theorem useVar_change (c : Ctx) (oldKey newKey : String) (sub : Nat) (dv : JSVal)
    (h : oldKey ≠ newKey) :
    (useVar c oldKey sub newKey dv).1 =
      subscribeVar (ensureVar (unsubscribeVar c oldKey sub) newKey dv) newKey sub := by
  simp [useVar, h]

/-- C9: when a mounted `useVar` call's variable name changes between
renders, its callback is removed from the old name's subscriber set and
added to the new name's set within that same render, so that after the
switch a `set` on the old variable name never notifies that callback —
every notification such a `set` delivers either predates the switch or
targets a different subscriber. -/
theorem c9_rebind_on_key_change (c : Ctx) (oldKey newKey : String) (sub : Nat)
    (dv w : JSVal) (h : oldKey ≠ newKey) :
    sub ∉ varSubs (useVar c oldKey sub newKey dv).1 oldKey ∧
    sub ∈ varSubs (useVar c oldKey sub newKey dv).1 newKey ∧
    ∀ x ∈ (applySetVar (useVar c oldKey sub newKey dv).1 oldKey w).notifyLog,
      x ∈ (useVar c oldKey sub newKey dv).1.notifyLog ∨ x.1 ≠ sub := by
  rw [useVar_change c oldKey newKey sub dv h]
  have ha : sub ∉ varSubs
      (subscribeVar (ensureVar (unsubscribeVar c oldKey sub) newKey dv) newKey sub) oldKey := by
    rw [varSubs_subscribeVar_ne _ _ _ _ (Ne.symm h), varSubs_ensureVar]
    exact varSubs_unsubscribeVar_self c oldKey sub
  refine ⟨ha, ?_, ?_⟩
  · rw [varSubs_subscribeVar_self _ _ _ _ (lookupA_ensureVar_self (unsubscribeVar c oldKey sub) newKey dv)]
    exact mem_insertSub _ sub
  · intro x hx
    rcases notifyLog_applySetVar_cases _ _ _ _ hx with hx | hx
    · exact Or.inl hx
    · right
      intro hxe
      rw [hxe] at hx
      exact ha hx

/-- Witness for C9: subscriber 5, subscribed to `"a"`, remaps to `"b"`:
it leaves `"a"`'s subscriber set, joins `"b"`'s, and a subsequent set on
`"a"` delivers no notification to it (here: none at all). -/
theorem c9_rebind_on_key_change_witness :
    ("a" : String) ≠ "b" ∧
    5 ∉ varSubs (useVar ctxC9 "a" 5 "b" .null).1 "a" ∧
    5 ∈ varSubs (useVar ctxC9 "a" 5 "b" .null).1 "b" ∧
    (applySetVar (useVar ctxC9 "a" 5 "b" .null).1 "a" (.num 9)).notifyLog = [] := by
  have hc := c9_rebind_on_key_change ctxC9 "a" "b" 5 .null (.num 9) (by decide)
  exact ⟨by decide, hc.1, hc.2.1, rfl⟩

theorem lookupA_some_mem {α : Type} (l : List (String × α)) (k : String) (v : α)
    (h : lookupA l k = some v) : (k, v) ∈ l := by
  induction l with
  | nil => simp at h
  | cons hd t ih =>
      obtain ⟨k', v'⟩ := hd
      by_cases hk : k' = k
      · subst hk
        rw [lookupA_cons, if_pos rfl] at h
        injection h with h
        subst h
        exact List.mem_cons_self _ _
      · simp only [lookupA_cons, hk, if_false] at h
        exact List.mem_cons_of_mem _ (ih h)

@[simp] theorem rest_resetFold (c : Ctx) (l : List (String × RestData)) :
    (resetFold c l).rest = c.rest := by
  induction l generalizing c with
  | nil => rfl
  | cons hd t ih => rw [resetFold, ih, rest_applySetVar]

@[simp] theorem vars_unsubscribeFree_resetFold_promisesSet (c : Ctx)
    (l : List (String × RestData)) : (resetFold c l).promisesSet = c.promisesSet := by
  induction l generalizing c with
  | nil => rfl
  | cons hd t ih => rw [resetFold, ih, promisesSet_applySetVar]

@[simp] theorem fetchLog_resetFold (c : Ctx) (l : List (String × RestData)) :
    (resetFold c l).fetchLog = c.fetchLog := by
  induction l generalizing c with
  | nil => rfl
  | cons hd t ih => rw [resetFold, ih, fetchLog_applySetVar]

theorem varSubs_resetFold (c : Ctx) (l : List (String × RestData)) (k : String) :
    varSubs (resetFold c l) k = varSubs c k := by
  induction l generalizing c with
  | nil => rfl
  | cons hd t ih => rw [resetFold, ih, varSubs_applySetVar]

theorem notifyLog_resetFold_mono (c : Ctx) (l : List (String × RestData))
    (x : Nat × String × JSVal) (h : x ∈ c.notifyLog) : x ∈ (resetFold c l).notifyLog := by
  induction l generalizing c with
  | nil => exact h
  | cons hd t ih =>
      rw [resetFold]
      exact ih _ (notifyLog_applySetVar_mem _ _ _ _ h)

theorem resetFold_notifies (l : List (String × RestData)) (c : Ctx) (k : String)
    (rd : RestData) (s : Nat) (hmem : (k, rd) ∈ l) (hs : s ∈ varSubs c rd.varKey) :
    (s, rd.varKey, JSVal.null) ∈ (resetFold c l).notifyLog := by
  induction l generalizing c with
  | nil => simp at hmem
  | cons hd t ih =>
      rcases List.mem_cons.mp hmem with heq | hmem'
      · subst heq
        rw [resetFold]
        exact notifyLog_resetFold_mono _ _ _
          (notifyLog_applySetVar_subscriber c rd.varKey .null s hs)
      · rw [resetFold]
        exact ih _ hmem' (by rw [varSubs_applySetVar]; exact hs)

/-- The value of `k`, if the entry exists, is `null`. -/
def valueNullOrAbsent (c : Ctx) (k : String) : Prop :=
  ∀ e, lookupA c.vars k = some e → e.value = .null

theorem valueNull_applySetVar_self (c : Ctx) (k : String) :
    valueNullOrAbsent (applySetVar c k .null) k := by
  intro e he
  unfold applySetVar at he
  cases hk : lookupA c.vars k with
  | none =>
      simp only [hk] at he
      exact Option.noConfusion he
  | some e₀ =>
      simp only [hk, lookupA_updateA_self] at he
      have he' : ({ value := JSVal.null, subscribers := e₀.subscribers } : VarEntry) = e := by
        simpa using he
      rw [← he']

theorem valueNull_applySetVar_preserve (c : Ctx) (k k' : String)
    (h : valueNullOrAbsent c k) : valueNullOrAbsent (applySetVar c k' .null) k := by
  by_cases hkk : k' = k
  · subst hkk
    exact valueNull_applySetVar_self c k'
  · intro e he
    unfold applySetVar at he
    cases hk' : lookupA c.vars k' with
    | none =>
        rw [hk'] at he
        exact h e he
    | some e₀ =>
        simp only [hk'] at he
        rw [lookupA_updateA_ne _ _ _ _ hkk] at he
        exact h e he

theorem valueNull_resetFold_preserve (l : List (String × RestData)) (c : Ctx) (k : String)
    (h : valueNullOrAbsent c k) : valueNullOrAbsent (resetFold c l) k := by
  induction l generalizing c with
  | nil => exact h
  | cons hd t ih =>
      rw [resetFold]
      exact ih _ (valueNull_applySetVar_preserve _ _ _ h)

theorem valueNull_resetFold (l : List (String × RestData)) (c : Ctx) (k : String)
    (rd : RestData) (hmem : (k, rd) ∈ l) :
    valueNullOrAbsent (resetFold c l) rd.varKey := by
  induction l generalizing c with
  | nil => simp at hmem
  | cons hd t ih =>
      rcases List.mem_cons.mp hmem with heq | hmem'
      · subst heq
        rw [resetFold]
        exact valueNull_resetFold_preserve _ _ _ (valueNull_applySetVar_self _ _)
      · rw [resetFold]
        exact ih _ hmem'

theorem useRestResetter_of_rest_empty (c : Ctx) (h : c.rest = some []) :
    useRestResetter c = c := by
  unfold useRestResetter
  rw [h]
  show resetFold { c with rest := some [] } [] = c
  rw [resetFold, ← h]

/-- C8: calling the cache reset operation (the closure returned by
`useRestResetter`) twice in a row produces the same observable effect as
calling it once — the second call is the identity on the once-reset
context; and one call leaves the cache namespace empty, has notified
every subscriber of every previously cached entry with `null`, and a
subsequent read of any previously cached endpoint refetches: it issues
exactly one new GET. -/
theorem c8_reset_idempotent (ctx : Ctx) :
    useRestResetter (useRestResetter ctx) = useRestResetter ctx ∧
    (useRestResetter ctx).rest.getD [] = [] ∧
    (∀ k rd, lookupA (ctx.rest.getD []) k = some rd →
      ∀ s, s ∈ varSubs ctx rd.varKey →
        (s, rd.varKey, JSVal.null) ∈ (useRestResetter ctx).notifyLog) ∧
    (∀ k rd, ∀ nt : JSVal, ∀ ttl : Option Int, ∀ sub : Nat, ∀ now : Int,
      lookupA (ctx.rest.getD []) k = some rd →
      rd.varKey = rd.path ++ "?" ++ rd.params →
      (useRest (useRestResetter ctx) rd.path (.str rd.params) nt ttl sub now).1.fetchLog =
        (useRestResetter ctx).fetchLog ++ [(rd.path, rd.params)]) := by
  cases hrest : ctx.rest with
  | none =>
      have hid : useRestResetter ctx = ctx := by
        unfold useRestResetter
        rw [hrest]
      refine ⟨by rw [hid, hid], by rw [hid, hrest]; rfl, ?_, ?_⟩
      · intro k rd hk
        simp at hk
      · intro k rd nt ttl sub now hk hvk
        simp at hk
  | some old =>
      have h1 : useRestResetter ctx = resetFold { ctx with rest := some [] } old := by
        unfold useRestResetter
        rw [hrest]
      have h2 : (useRestResetter ctx).rest = some [] := by rw [h1, rest_resetFold]
      refine ⟨useRestResetter_of_rest_empty _ h2, by rw [h2]; rfl, ?_, ?_⟩
      · intro k rd hk s hs
        have hmem : (k, rd) ∈ old := lookupA_some_mem _ _ _ hk
        rw [h1]
        exact resetFold_notifies old _ k rd s hmem hs
      · intro k rd nt ttl sub now hk hvk
        have hmem : (k, rd) ∈ old := lookupA_some_mem _ _ _ hk
        have hnullp : valueNullOrAbsent (useRestResetter ctx) rd.varKey := by
          rw [h1]
          exact valueNull_resetFold old _ k rd hmem
        have hfresh : restLookup (useRestResetter ctx) (rd.path ++ "?" ++ rd.params) = none := by
          unfold restLookup
          rw [h2]
          rfl
        have hnull : looseNull
            ((varValue (useRestResetter ctx) (rd.path ++ "?" ++ rd.params)).getD .null) = true := by
          rw [← hvk]
          unfold varValue
          cases hke : lookupA (useRestResetter ctx).vars rd.varKey with
          | none => rfl
          | some e =>
              show looseNull e.value = true
              rw [hnullp e hke]
              rfl
        exact (useRest_fresh (useRestResetter ctx) rd.path (rd.path ++ "?" ++ rd.params)
          (.str rd.params) nt ttl sub now rfl hfresh hnull).1

/-- Witness for C8: on the context holding a fetched `"/a"` entry with
subscriber 5, the reset is idempotent, empties the cache, notifies
subscriber 5 with `null`, and the next read of `"/a"` refetches. -/
theorem c8_reset_idempotent_witness :
    useRestResetter (useRestResetter ctxWithValue) = useRestResetter ctxWithValue ∧
    (useRestResetter ctxWithValue).rest.getD [] = [] ∧
    (5, "/a?", JSVal.null) ∈ (useRestResetter ctxWithValue).notifyLog ∧
    (useRest (useRestResetter ctxWithValue) "/a" (.str "") .undefined none 6 200).1.fetchLog =
      (useRestResetter ctxWithValue).fetchLog ++ [("/a", "")] := by
  have h := c8_reset_idempotent ctxWithValue
  refine ⟨h.1, h.2.1, ?_, ?_⟩
  · exact h.2.2.1 "/a?" rdW rfl 5 (by decide)
  · exact h.2.2.2 "/a?" rdW .undefined none 6 200 rfl rfl

end KlbfwHooks
